import Mathlib

/-!
# Verification of the ndex2 CX network model against its specification

This file gives a shallow embedding of the core of the `ndex2-client`
repository and settles the specification claims against it.

Embedded from the source:
* `NiceCXBuilder.add_node` / `NiceCXBuilder.add_edge`
  (`ndex2cx/NiceCXBuilder.py`),
* the status-record preparation step of `Ndex2.save_new_network`
  (`ndex2/client.py`),
* `DecimalEncoder.default` (`ndex2/client.py`).

The `NiceCXNetwork` class itself (attribute subsystem, style
reconciliation, `create_node`) is not part of the source tree handed to
us — only its tests and callers are — so those operations are modelled
from the specification text, as flagged on each definition.

Python dicts are modelled as insertion-ordered association lists with
`lookupKey` / `upsertAssoc` below (assignment to an existing key keeps
its position; a new key is appended at the end, as in CPython).
-/

/-- Lookup in an insertion-ordered association list (Python `dict.get`). -/
def lookupKey {κ α : Type} [DecidableEq κ] : List (κ × α) → κ → Option α
  | [], _ => none
  | p :: rest, k => if p.1 = k then some p.2 else lookupKey rest k

/-- Assignment `d[k] = v` on a Python dict: replace the value at an existing
key in place, otherwise append the new binding at the end. -/
def upsertAssoc {κ α : Type} [DecidableEq κ] : List (κ × α) → κ → α → List (κ × α)
  | [], k, v => [(k, v)]
  | p :: rest, k, v => if p.1 = k then (k, v) :: rest else p :: upsertAssoc rest k v

theorem lookupKey_upsert_self {κ α : Type} [DecidableEq κ]
    (l : List (κ × α)) (k : κ) (v : α) :
    lookupKey (upsertAssoc l k v) k = some v := by
  induction l with
  | nil => simp [upsertAssoc, lookupKey]
  | cons p rest ih =>
    by_cases h : p.1 = k
    · simp [upsertAssoc, lookupKey, h]
    · simp [upsertAssoc, lookupKey, h, ih]

theorem lookupKey_append_single_self {κ α : Type} [DecidableEq κ]
    (l : List (κ × α)) (k : κ) (v : α) (h : lookupKey l k = none) :
    lookupKey (l ++ [(k, v)]) k = some v := by
  induction l with
  | nil => simp [lookupKey]
  | cons p rest ih =>
    by_cases hp : p.1 = k
    · simp [lookupKey, hp] at h
    · simp [lookupKey, hp] at h ⊢
      exact ih h

theorem lookupKey_isSome_mem {κ α : Type} [DecidableEq κ]
    (l : List (κ × α)) (k : κ) (h : (lookupKey l k).isSome) :
    k ∈ l.map Prod.fst := by
  induction l with
  | nil => simp [lookupKey] at h
  | cons p rest ih =>
    by_cases hp : p.1 = k
    · simp [hp.symm]
    · simp [lookupKey, hp] at h
      simp [ih h]

theorem keys_upsert_of_none {κ α : Type} [DecidableEq κ]
    (l : List (κ × α)) (k : κ) (v : α) (h : lookupKey l k = none) :
    (upsertAssoc l k v).map Prod.fst = l.map Prod.fst ++ [k] := by
  induction l with
  | nil => simp [upsertAssoc]
  | cons p rest ih =>
    by_cases hp : p.1 = k
    · simp [lookupKey, hp] at h
    · simp [lookupKey, hp] at h
      simp [upsertAssoc, hp, ih h]

/-! ## The incremental builder (`ndex2cx/NiceCXBuilder.py`) -/

/-- A staged node record `{'@id': .., 'n': .., 'r'?: .., 'd'?: ..}` as built by
`NiceCXBuilder.add_node` (lines 137-141). -/
structure NodeRec where
  atId : Nat
  n : String
  r : Option String
  d : Option String
deriving DecidableEq, Repr

/-- A staged edge record `{'@id': .., 's': .., 't': .., 'i': ..}` as built by
`NiceCXBuilder.add_edge` (lines 169-173); `i` defaults to
`"interacts-with"`. -/
structure EdgeRec where
  atId : Nat
  s : Nat
  t : Nat
  i : String
deriving DecidableEq, Repr

/-- The staging state of `NiceCXBuilder` relevant to node/edge creation:
`node_inventory` is keyed by node *name*, `edge_inventory` by edge *id*
(lines 35-43 of `NiceCXBuilder.py`). -/
structure NiceCXBuilder where
  node_inventory : List (String × NodeRec)
  node_id_counter : Nat
  edge_inventory : List (Nat × EdgeRec)
  edge_id_counter : Nat
deriving DecidableEq, Repr

/-- A fresh builder (constructor, lines 35-43). -/
def NiceCXBuilder.init : NiceCXBuilder := ⟨[], 0, [], 0⟩

/-- `NiceCXBuilder.add_node(name, represents, id, data_type)`
(lines 115-145): deduplicates by name, returning the staged node's `@id`
unchanged; otherwise the Python test `if id:` is *truthiness*, so `id=None`
and `id=0` both allocate from `node_id_counter` (which is bumped), while a
nonzero explicit id is used as-is (counter untouched). Returns
`(node_id, new state)`. -/
def NiceCXBuilder.add_node (self : NiceCXBuilder) (name : String)
    (represents : Option String) (id : Option Nat) (data_type : Option String) :
    Nat × NiceCXBuilder :=
  match lookupKey self.node_inventory name with
  | some found => (found.atId, self)
  | none =>
    let truthy : Bool := id.getD 0 ≠ 0
    let node_id := if truthy then id.getD 0 else self.node_id_counter
    let counter := if truthy then self.node_id_counter else self.node_id_counter + 1
    let add_this_node : NodeRec := ⟨node_id, name, represents, data_type⟩
    (node_id,
      { self with
          node_inventory := self.node_inventory ++ [(name, add_this_node)],
          node_id_counter := counter })

/-- `NiceCXBuilder.add_edge(source, target, interaction, id)`
(lines 147-177): the test here is `if id is not None:`, so an explicit id of
`0` *is* honored; otherwise the id comes from `edge_id_counter` (bumped).
The record lands in `edge_inventory[edge_id]` (a dict assignment, so a
colliding id silently replaces the prior edge). -/
def NiceCXBuilder.add_edge (self : NiceCXBuilder) (source target : Nat)
    (interaction : Option String) (id : Option Nat) : Nat × NiceCXBuilder :=
  let edge_id := match id with
    | some k => k
    | none => self.edge_id_counter
  let counter := match id with
    | some _ => self.edge_id_counter
    | none => self.edge_id_counter + 1
  let add_this_edge : EdgeRec := ⟨edge_id, source, target, interaction.getD "interacts-with"⟩
  (edge_id,
    { self with
        edge_inventory := upsertAssoc self.edge_inventory edge_id add_this_edge,
        edge_id_counter := counter })

/-- One builder call, for reasoning about call sequences. -/
inductive BuilderOp
  | opAddNode (name : String) (represents : Option String)
      (id : Option Nat) (data_type : Option String)
  | opAddEdge (source target : Nat) (interaction : Option String) (id : Option Nat)
deriving DecidableEq, Repr

/-- The explicit-id argument of a builder call. -/
def BuilderOp.idArg : BuilderOp → Option Nat
  | .opAddNode _ _ id _ => id
  | .opAddEdge _ _ _ id => id

/-- Execute one builder call for its state effect. -/
def BuilderOp.apply (self : NiceCXBuilder) : BuilderOp → NiceCXBuilder
  | .opAddNode name represents id data_type =>
      (self.add_node name represents id data_type).2
  | .opAddEdge source target interaction id =>
      (self.add_edge source target interaction id).2

/-- Execute a sequence of builder calls from a given state. -/
def runOps (self : NiceCXBuilder) : List BuilderOp → NiceCXBuilder
  | [] => self
  | op :: rest => runOps (BuilderOp.apply self op) rest

/-- The node ids of the staged node inventory, in insertion order. -/
def nodeIds (self : NiceCXBuilder) : List Nat :=
  self.node_inventory.map (fun p => p.2.atId)

/-- The edge ids of the staged edge inventory, in insertion order. -/
def edgeIds (self : NiceCXBuilder) : List Nat :=
  self.edge_inventory.map Prod.fst

/-! ## Status-record preparation in `Ndex2.save_new_network` (`ndex2/client.py`) -/

/-- One record of a `status` aspect: `{"error": .., "success": ..}`. -/
structure StatusRec where
  error : String
  success : Bool
deriving DecidableEq, Repr

/-- A CX fragment (aspect bundle): a single-key JSON object. A non-status
bundle is abstracted to its aspect name and an opaque record count; a status
bundle carries its records. -/
inductive CXFragment
  | aspect (name : String) (records : Nat)
  | statusFrag (records : List StatusRec)
deriving DecidableEq, Repr

/-- `fragment.get('status')`: the status records if this bundle is a status
bundle, else `none`. -/
def CXFragment.getStatus : CXFragment → Option (List StatusRec)
  | .statusFrag records => some records
  | .aspect _ _ => none

/-- The CX-list preparation step of `Ndex2.save_new_network`
(`ndex2/client.py` lines 371-376): if the last fragment has no `status` key,
append `{"status": [{"error": "", "success": True}]}`; if it has an *empty*
status list, append `{"error": "", "success": True}` inside it in place;
otherwise leave the list unchanged. (The guard `cx[-1] is not None` is
vacuous here because every fragment is a JSON object; the empty-list case is
rejected earlier in `save_new_network`.) -/
def save_new_network_prepare (cx : List CXFragment) : List CXFragment :=
  match cx.getLast? with
  | none => cx
  | some last =>
    match last.getStatus with
    | none => cx ++ [.statusFrag [⟨"", true⟩]]
    | some records =>
      if records.length < 1 then
        cx.dropLast ++ [.statusFrag (records ++ [⟨"", true⟩])]
      else
        cx

/-! ## `DecimalEncoder.default` (`ndex2/client.py` lines 1762-1771) -/

/-- A Python value reaching `DecimalEncoder.default`: an arbitrary-precision
`decimal.Decimal` (modelled exactly as a rational), a `numpy.integer`, a
`bytes` object (a sequence of byte values), or anything else (handed to the
base-class fallback). -/
inductive PyObj
  | pdecimal (q : ℚ)
  | pnpint (i : Int)
  | pbytes (bs : List Nat)
  | pother (s : String)
deriving DecidableEq, Repr

/-- The JSON-level result of `DecimalEncoder.default`: `float(o)` is modelled
as a float-kinded number (the claim concerns the kind mapping, not IEEE
rounding), `int(o)` as a plain integer, a decoded `bytes` as text, and the
base-class fallback is tagged as such. -/
inductive JVal
  | jfloat (q : ℚ)
  | jint (i : Int)
  | jstr (s : String)
  | jfallback (s : String)
deriving DecidableEq, Repr

/-- The error raised by `bytes.decode('ascii')` on a byte outside 0..127. -/
inductive EncodingError
  | nonAsciiByte (b : Nat)
deriving DecidableEq, Repr

/-- `bytes.decode('ascii')`: succeeds iff every byte is < 128. -/
def asciiDecode (bs : List Nat) : Except EncodingError String :=
  match bs.find? (fun b => 128 ≤ b) with
  | some b => .error (.nonAsciiByte b)
  | none => .ok (String.mk (bs.map Char.ofNat))

/-- `DecimalEncoder.default` (`ndex2/client.py` lines 1763-1771):
`decimal.Decimal` → `float(o)`; `numpy.integer` → `int(o)`;
`bytes` → `o.decode('ascii')` (propagating the decode error);
anything else falls through to the base-class `encode`. -/
def DecimalEncoder.default (o : PyObj) : Except EncodingError JVal :=
  match o with
  | .pdecimal q => .ok (.jfloat q)
  | .pnpint i => .ok (.jint i)
  | .pbytes bs =>
    match asciiDecode bs with
    | .error e => .error e
    | .ok s => .ok (.jstr s)
  | .pother s => .ok (.jfallback s)

/-! ## The Network Model (`NiceCXNetwork`), modelled from the spec

The class `ndex2/nice_cx_network.py` is not in the source tree handed to
us (only its tests in `tests/test_nice_cx_network.py` and its callers are),
so the definitions in this section are modelled from the specification
(§3, §4.2, §4.3, §4.5), with the literal error messages the tests pin. -/

/-- A scalar CX attribute value shape (spec §4.2): a boolean, a whole
number, a fractional number (kept exact as a rational), or a string. -/
inductive CXScalar
  | sbool (b : Bool)
  | swhole (i : Int)
  | sfrac (q : ℚ)
  | sstr (s : String)
deriving DecidableEq, Repr

/-- A CX attribute value: a scalar or a sequence of scalars. -/
inductive CXValue
  | scalar (s : CXScalar)
  | vlist (elems : List CXScalar)
deriving DecidableEq, Repr

/-- Whether a scalar is a string value. -/
def isStrScalar : CXScalar → Bool
  | .sstr _ => true
  | _ => false

/-- Whether a scalar is a whole-number value. -/
def isWholeScalar : CXScalar → Bool
  | .swhole _ => true
  | _ => false

/-- Whether a scalar is a fractional-number value. -/
def isFracScalar : CXScalar → Bool
  | .sfrac _ => true
  | _ => false

/-- Whether a scalar is a boolean value. -/
def isBoolScalar : CXScalar → Bool
  | .sbool _ => true
  | _ => false

/-- Modelled from the spec: datatype inference (§4.2) — "whole number →
`integer`; fractional number → `double`; boolean → `boolean`; homogeneous
sequence of strings → `list_of_string` (generalize analogously for other
element types); anything else → `string`". A heterogeneous sequence falls
under "anything else". -/
def inferDatatype : CXValue → String
  | .scalar (.swhole _) => "integer"
  | .scalar (.sfrac _) => "double"
  | .scalar (.sbool _) => "boolean"
  | .scalar (.sstr _) => "string"
  | .vlist elems =>
    if elems.all isStrScalar then
      "list_of_string"
    else if elems.all isWholeScalar then
      "list_of_integer"
    else if elems.all isFracScalar then
      "list_of_double"
    else if elems.all isBoolScalar then
      "list_of_boolean"
    else
      "string"

/-- The error kinds of the spec (§7) relevant to the modelled operations. -/
inductive NDExErr
  | invalidArgument (msg : String)
  | noStyleFound (msg : String)
deriving DecidableEq, Repr

/-- The `propertyOf` argument of `setAttribute` as the caller may pass it
(spec §4.2): absent/`None`, a plain element id, or a structured element
reference that may or may not carry an id field. -/
inductive PropertyOf
  | pnull
  | pid (i : Nat)
  | pobj (atId : Option Nat)
deriving DecidableEq, Repr

/-- Whether `setAttribute` targets node or edge attributes. -/
inductive OwnerKind
  | node
  | edge
deriving DecidableEq, Repr

/-- The capitalized owner-kind word used in the error messages. -/
def OwnerKind.label : OwnerKind → String
  | .node => "Node"
  | .edge => "Edge"

/-- A stored attribute record `{po, n, v, d}` (spec §3). -/
structure AttrRec where
  po : Nat
  n : String
  v : CXValue
  d : String
deriving DecidableEq, Repr

/-- A visual-style record, classified per the spec (§4.5): a category
default bundle (network / node / edge) or a per-element specific override;
the payload is an opaque property list. -/
inductive StyleRec
  | networkDefault (props : List (String × String))
  | nodeDefault (props : List (String × String))
  | edgeDefault (props : List (String × String))
  | nodeOverride (eltId : Nat) (props : List (String × String))
  | edgeOverride (eltId : Nat) (props : List (String × String))
deriving DecidableEq, Repr

/-- Modelled from the spec (§4.5, §9): the visual-styling opaque aspect in
one of its "two historical schema shapes (a legacy flat per-category list,
or a newer bundle-of-bundles shape)", a tagged union whose two decode paths
converge on one canonical 3-bundle normalized form. -/
inductive VisualAspect
  | legacy (records : List StyleRec)
  | bundled (records : List StyleRec)
deriving DecidableEq, Repr

/-- The records of a visual-styling aspect, in either shape. -/
def VisualAspect.records : VisualAspect → List StyleRec
  | .legacy records => records
  | .bundled records => records

/-- A node record of the Network Model `{id, name, represents?}` (spec §3). -/
structure NodeElement where
  atId : Nat
  name : String
  represents : String
deriving DecidableEq, Repr

/-- Modelled from the spec: the Network Model (`NiceCXNetwork`, absent from
the source tree) restricted to the state the claims touch — nodes with a
monotonic id counter (§4.3), node/edge attribute indices keyed by owner id
(§3), and the visual-styling opaque aspect (§4.5). -/
structure NiceCXNetwork where
  nodes : List (Nat × NodeElement)
  node_id_counter : Nat
  nodeAttributes : List (Nat × List AttrRec)
  edgeAttributes : List (Nat × List AttrRec)
  visualAspect : Option VisualAspect
deriving DecidableEq, Repr

/-- An empty Network Model. -/
def NiceCXNetwork.empty : NiceCXNetwork := ⟨[], 0, [], [], none⟩

/-- Modelled from the spec: `createNode` (§4.3) "allocates the next unused
id (monotonic counter), inserts, returns id. No deduplication by name at
this layer." `represents` defaults to the node name (as
`test_upload_to_success` observes: node `bob` carries `"r": "bob"`). -/
def NiceCXNetwork.create_node (self : NiceCXNetwork) (node_name : String)
    (node_represents : Option String) : Nat × NiceCXNetwork :=
  let node_id := self.node_id_counter
  let elt : NodeElement := ⟨node_id, node_name, node_represents.getD node_name⟩
  (node_id,
    { self with
        nodes := self.nodes ++ [(node_id, elt)],
        node_id_counter := node_id + 1 })

/-- The attribute list of one owner in the given kind's index, `[]` if none
(spec §4.2 read contract). -/
def NiceCXNetwork.ownerAtts (self : NiceCXNetwork) (kind : OwnerKind) (po : Nat) :
    List AttrRec :=
  match kind with
  | .node => (lookupKey self.nodeAttributes po).getD []
  | .edge => (lookupKey self.edgeAttributes po).getD []

/-- Store a new attribute list for one owner in the given kind's index. -/
def NiceCXNetwork.setOwnerAtts (self : NiceCXNetwork) (kind : OwnerKind) (po : Nat)
    (atts : List AttrRec) : NiceCXNetwork :=
  match kind with
  | .node => { self with nodeAttributes := upsertAssoc self.nodeAttributes po atts }
  | .edge => { self with edgeAttributes := upsertAssoc self.edgeAttributes po atts }

/-- Modelled from the spec: resolving the `propertyOf` argument to an
element id once it is known to be present — a plain id is used as-is; a
structured reference yields its id field or fails with "No id found in
Node"/"No id found in Edge" (§4.2). -/
def resolvePropertyOf (kind : OwnerKind) : PropertyOf → Except NDExErr Nat
  | .pnull => .error (.invalidArgument ("No id found in " ++ kind.label))
  | .pid i => .ok i
  | .pobj (some i) => .ok i
  | .pobj none => .error (.invalidArgument ("No id found in " ++ kind.label))

/-- Modelled from the spec: `setAttribute(ownerKind, propertyOf, name,
value, datatype?, overwrite)` (§4.2). Null `propertyOf` fails with
"requires property_of"; a missing name or value fails with "requires the
name and values property" (checked before structured-reference resolution,
as `test_set_node_attribute_none_values` observes); the datatype is
inferred when not explicit; by default the record is appended to the
owner's list, while `overwrite=true` replaces the owner's *entire*
attribute list with the single new record (§4.2, §9). -/
def NiceCXNetwork.set_attribute (self : NiceCXNetwork) (kind : OwnerKind)
    (property_of : PropertyOf) (name : Option String) (values : Option CXValue)
    (type : Option String) (overwrite : Bool) : Except NDExErr NiceCXNetwork :=
  match property_of with
  | .pnull =>
    .error (.invalidArgument (kind.label ++ " attribute requires property_of"))
  | po =>
    match name, values with
    | some nm, some v =>
      match resolvePropertyOf kind po with
      | .error e => .error e
      | .ok i =>
        let d := type.getD (inferDatatype v)
        let attrRec : AttrRec := ⟨i, nm, v, d⟩
        let newList := if overwrite then [attrRec] else self.ownerAtts kind i ++ [attrRec]
        .ok (self.setOwnerAtts kind i newList)
    | _, _ =>
      .error (.invalidArgument
        (kind.label ++ " attribute requires the name and values property"))

/-- `set_node_attribute`, as the tests call it. -/
def NiceCXNetwork.set_node_attribute (self : NiceCXNetwork) (property_of : PropertyOf)
    (name : Option String) (values : Option CXValue) (type : Option String)
    (overwrite : Bool) : Except NDExErr NiceCXNetwork :=
  self.set_attribute .node property_of name values type overwrite

/-- `get_node_attributes(po)`: the owner's list in insertion order, `[]`
if none (spec §4.2). -/
def NiceCXNetwork.get_node_attributes (self : NiceCXNetwork) (po : Nat) : List AttrRec :=
  self.ownerAtts .node po

/-- Modelled from the spec: the style normalization step (§4.5) — the
source styling aspect, in either schema shape, "is parsed into three
canonical category bundles: network-default, node-default, edge-default";
per-element specific override records are discarded. -/
def collectNetworkDefault : List StyleRec → List (String × String)
  | [] => []
  | .networkDefault props :: rest => props ++ collectNetworkDefault rest
  | _ :: rest => collectNetworkDefault rest

/-- Collect all node-default properties of a styling record list. -/
def collectNodeDefault : List StyleRec → List (String × String)
  | [] => []
  | .nodeDefault props :: rest => props ++ collectNodeDefault rest
  | _ :: rest => collectNodeDefault rest

/-- Collect all edge-default properties of a styling record list. -/
def collectEdgeDefault : List StyleRec → List (String × String)
  | [] => []
  | .edgeDefault props :: rest => props ++ collectEdgeDefault rest
  | _ :: rest => collectEdgeDefault rest

/-- Modelled from the spec: the canonical 3-bundle normalized form of a
visual-styling aspect (§4.5, §9) — exactly the network-default,
node-default and edge-default bundles, with per-element overrides
discarded. -/
def normalizeStyle (va : VisualAspect) : List StyleRec :=
  [ .networkDefault (collectNetworkDefault va.records),
    .nodeDefault (collectNodeDefault va.records),
    .edgeDefault (collectEdgeDefault va.records) ]

/-- The dynamic argument of `applyStyleFrom` as a Python caller may pass
it: `None`, a value of some other type, or an actual Network Model. -/
inductive ApplyArg
  | anone
  | notNetwork
  | anet (net : NiceCXNetwork)
deriving DecidableEq, Repr

/-- Modelled from the spec: `applyStyleFrom(source)` (§4.5). Fails with
`InvalidArgument` "Object passed in is None" when `source` is absent, with
`InvalidArgument` "Object passed in is not NiceCXNetwork" when it is not a
Network Model, with `NoStyleFound` "No visual style found in network" when
it has no visual-styling opaque aspect; otherwise the target's styling
aspect is replaced wholesale with the three normalized category bundles
derived from the source, and nothing else in the target changes. -/
def NiceCXNetwork.apply_style_from_network (self : NiceCXNetwork) (source : ApplyArg) :
    Except NDExErr NiceCXNetwork :=
  match source with
  | .anone => .error (.invalidArgument "Object passed in is None")
  | .notNetwork => .error (.invalidArgument "Object passed in is not NiceCXNetwork")
  | .anet src =>
    match src.visualAspect with
    | none => .error (.noStyleFound "No visual style found in network")
    | some va => .ok { self with visualAspect := some (.bundled (normalizeStyle va)) }

/-- The number of records of the target's styling aspect, if present. -/
def NiceCXNetwork.styleRecordCount (self : NiceCXNetwork) : Option Nat :=
  self.visualAspect.map (fun va => va.records.length)

/-! ## Claims about the builder (C7, C8, C10) -/

/-- C10: at the builder's public interface, `add_node` tests the explicit
`id` for *truthiness* (`if id:`), so `id=0` behaves exactly like no id at
all and allocates from the node counter (hence may return a nonzero id,
e.g. from a builder whose counter is at 1), whereas `add_edge` tests
`id is not None`, so an explicit `id=0` is honored and returned. -/
theorem add_node_zero_id_truthiness :
    (∀ (st : NiceCXBuilder) (n : String) (rep dt : Option String),
      st.add_node n rep (some 0) dt = st.add_node n rep none dt)
    ∧ (∀ (st : NiceCXBuilder) (s t : Nat) (i : Option String),
      (st.add_edge s t i (some 0)).1 = 0)
    ∧ (NiceCXBuilder.add_node ⟨[], 1, [], 0⟩ "a" none (some 0) none).1 = 1 := by
  refine ⟨?_, ?_, ?_⟩
  · intro st n rep dt
    cases h : lookupKey st.node_inventory n <;>
      simp [NiceCXBuilder.add_node, h]
  · intro st s t i
    simp [NiceCXBuilder.add_edge]
  · rfl

/-- The uniqueness invariant maintained by counter-allocated ids: every
staged id is below its namespace's counter, and each namespace's ids are
pairwise distinct. -/
def BuilderInv (st : NiceCXBuilder) : Prop :=
  (∀ i ∈ nodeIds st, i < st.node_id_counter) ∧ (nodeIds st).Nodup
    ∧ (∀ i ∈ edgeIds st, i < st.edge_id_counter) ∧ (edgeIds st).Nodup

theorem builderInv_init : BuilderInv NiceCXBuilder.init := by
  refine ⟨?_, ?_, ?_, ?_⟩ <;> simp [nodeIds, edgeIds, NiceCXBuilder.init]

theorem builderInv_step (st : NiceCXBuilder) (op : BuilderOp)
    (hop : op.idArg = none) (h : BuilderInv st) : BuilderInv (BuilderOp.apply st op) := by
  obtain ⟨hnb, hnd, heb, hed⟩ := h
  cases op with
  | opAddNode name represents id data_type =>
    simp [BuilderOp.idArg] at hop
    subst hop
    cases hl : lookupKey st.node_inventory name with
    | some found =>
      simpa [BuilderOp.apply, NiceCXBuilder.add_node, hl] using ⟨hnb, hnd, heb, hed⟩
    | none =>
      have hmem : st.node_id_counter ∉ nodeIds st := fun hm =>
        absurd (hnb _ hm) (lt_irrefl _)
      set st1 := BuilderOp.apply st (.opAddNode name represents none data_type) with hst1
      have hids : nodeIds st1 = nodeIds st ++ [st.node_id_counter] := by
        simp [hst1, BuilderOp.apply, NiceCXBuilder.add_node, hl, nodeIds]
      have hcnt : st1.node_id_counter = st.node_id_counter + 1 := by
        simp [hst1, BuilderOp.apply, NiceCXBuilder.add_node, hl]
      have hedg : edgeIds st1 = edgeIds st := by
        simp [hst1, BuilderOp.apply, NiceCXBuilder.add_node, hl, edgeIds]
      have hecnt : st1.edge_id_counter = st.edge_id_counter := by
        simp [hst1, BuilderOp.apply, NiceCXBuilder.add_node, hl]
      refine ⟨?_, ?_, ?_, ?_⟩
      · rw [hids, hcnt]
        intro i hi
        rcases List.mem_append.mp hi with h1 | h2
        · exact Nat.lt_succ_of_lt (hnb i h1)
        · rw [List.mem_singleton.mp h2]
          exact Nat.lt_succ_self _
      · rw [hids]
        refine hnd.append (List.nodup_singleton _) ?_
        intro a ha hb
        rw [List.mem_singleton.mp hb] at ha
        exact hmem ha
      · rw [hedg, hecnt]; exact heb
      · rw [hedg]; exact hed
  | opAddEdge source target interaction id =>
    simp [BuilderOp.idArg] at hop
    subst hop
    have hmem : st.edge_id_counter ∉ edgeIds st := fun hm =>
      absurd (heb _ hm) (lt_irrefl _)
    have hlk : lookupKey st.edge_inventory st.edge_id_counter = none := by
      cases hk : lookupKey st.edge_inventory st.edge_id_counter with
      | none => rfl
      | some e =>
        exact absurd (lookupKey_isSome_mem _ _ (by simp [hk])) hmem
    set st1 := BuilderOp.apply st (.opAddEdge source target interaction none) with hst1
    have hids : edgeIds st1 = edgeIds st ++ [st.edge_id_counter] := by
      simp only [hst1, BuilderOp.apply, NiceCXBuilder.add_edge, edgeIds]
      exact keys_upsert_of_none st.edge_inventory st.edge_id_counter _ hlk
    have hcnt : st1.edge_id_counter = st.edge_id_counter + 1 := by
      simp [hst1, BuilderOp.apply, NiceCXBuilder.add_edge]
    have hndg : nodeIds st1 = nodeIds st := by
      simp [hst1, BuilderOp.apply, NiceCXBuilder.add_edge, nodeIds]
    have hncnt : st1.node_id_counter = st.node_id_counter := by
      simp [hst1, BuilderOp.apply, NiceCXBuilder.add_edge]
    refine ⟨?_, ?_, ?_, ?_⟩
    · rw [hndg, hncnt]; exact hnb
    · rw [hndg]; exact hnd
    · rw [hids, hcnt]
      intro i hi
      rcases List.mem_append.mp hi with h1 | h2
      · exact Nat.lt_succ_of_lt (heb i h1)
      · rw [List.mem_singleton.mp h2]
        exact Nat.lt_succ_self _
    · rw [hids]
      refine hed.append (List.nodup_singleton _) ?_
      intro a ha hb
      rw [List.mem_singleton.mp hb] at ha
      exact hmem ha

theorem builderInv_runOps (ops : List BuilderOp)
    (hops : ∀ op ∈ ops, op.idArg = none) :
    ∀ st : NiceCXBuilder, BuilderInv st → BuilderInv (runOps st ops) := by
  induction ops with
  | nil => intro st h; exact h
  | cons op rest ih =>
    intro st h
    exact ih (fun o ho => hops o (List.mem_cons_of_mem _ ho)) _
      (builderInv_step st op (hops op (List.mem_cons_self _ _)) h)

/-- C8, counterexample: the claim is false as stated when explicit ids are
mixed with counter-allocated ids — `add_node("a", id=1)` does not advance
the counter, so the two following counter-allocated nodes get ids 0 and 1,
and the staged inventory holds nodes `a` and `c` with the same id 1. -/
theorem builder_mixed_ids_not_distinct :
    ¬ (nodeIds (runOps NiceCXBuilder.init
        [ .opAddNode "a" none (some 1) none,
          .opAddNode "b" none none none,
          .opAddNode "c" none none none ])).Nodup := by
  decide

/-- C8, amended: for every sequence of builder `add_node`/`add_edge` calls
in which no call supplies an explicit id (every id is allocated from the
builder's counters), all staged node ids are pairwise distinct and all
staged edge ids are pairwise distinct. -/
theorem builder_fresh_ids_distinct (ops : List BuilderOp)
    (hops : ∀ op ∈ ops, op.idArg = none) :
    (nodeIds (runOps NiceCXBuilder.init ops)).Nodup
    ∧ (edgeIds (runOps NiceCXBuilder.init ops)).Nodup := by
  obtain ⟨-, hnd, -, hed⟩ := builderInv_runOps ops hops NiceCXBuilder.init builderInv_init
  exact ⟨hnd, hed⟩

/-- Witness for the amended C8 at a concrete call sequence. -/
theorem builder_fresh_ids_distinct_app :
    (nodeIds (runOps NiceCXBuilder.init
      [ .opAddNode "a" none none none,
        .opAddNode "b" none none none,
        .opAddEdge 0 1 none none ])).Nodup
    ∧ (edgeIds (runOps NiceCXBuilder.init
      [ .opAddNode "a" none none none,
        .opAddNode "b" none none none,
        .opAddEdge 0 1 none none ])).Nodup :=
  builder_fresh_ids_distinct _ (by decide)

/-- C7: the builder's `add_node` deduplicates by name — when the name is
not yet staged, a second `add_node` with the same name (whatever its other
arguments) returns exactly the first call's id and leaves the state,
including the staged node's `represents`, unchanged — whereas the Network
Model's `create_node` never deduplicates: two calls with the same name
return distinct ids. -/
theorem builder_addnode_dedups_model_createnode_does_not :
    (∀ (st : NiceCXBuilder) (n : String) (rep1 rep2 : Option String)
        (id1 id2 : Option Nat) (dt1 dt2 : Option String),
      lookupKey st.node_inventory n = none →
      NiceCXBuilder.add_node (st.add_node n rep1 id1 dt1).2 n rep2 id2 dt2
        = st.add_node n rep1 id1 dt1)
    ∧ (∀ (m : NiceCXNetwork) (nm : String) (rep : Option String),
      (m.create_node nm rep).1 ≠ ((m.create_node nm rep).2.create_node nm rep).1) := by
  constructor
  · intro st n rep1 rep2 id1 id2 dt1 dt2 h
    simp only [NiceCXBuilder.add_node, h]
    rw [lookupKey_append_single_self _ _ _ h]
  · intro m nm rep
    simp [NiceCXNetwork.create_node]

/-- Witness for C7 at a fresh builder and empty model with name `bob`. -/
theorem builder_addnode_dedups_model_createnode_does_not_app :
    (NiceCXBuilder.add_node
        (NiceCXBuilder.init.add_node "bob" none none none).2 "bob" none none none
      = NiceCXBuilder.init.add_node "bob" none none none)
    ∧ (NiceCXNetwork.empty.create_node "bob" none).1
      ≠ ((NiceCXNetwork.empty.create_node "bob" none).2.create_node "bob" none).1 :=
  ⟨builder_addnode_dedups_model_createnode_does_not.1
      NiceCXBuilder.init "bob" none none none none none none rfl,
    builder_addnode_dedups_model_createnode_does_not.2 NiceCXNetwork.empty "bob" none⟩

/-! ## Claims about the attribute subsystem (C1, C3, C5) -/

theorem ownerAtts_setOwnerAtts_self (st : NiceCXNetwork) (kind : OwnerKind)
    (po : Nat) (atts : List AttrRec) :
    (st.setOwnerAtts kind po atts).ownerAtts kind po = atts := by
  cases kind <;>
    simp [NiceCXNetwork.setOwnerAtts, NiceCXNetwork.ownerAtts, lookupKey_upsert_self]

/-- The success path of `set_attribute` on a plain owner id. -/
theorem set_attribute_ok (st : NiceCXNetwork) (kind : OwnerKind) (o : Nat)
    (k : String) (v : CXValue) (dt : Option String) (ow : Bool) :
    st.set_attribute kind (.pid o) (some k) (some v) dt ow =
      .ok (st.setOwnerAtts kind o
        (if ow then [⟨o, k, v, dt.getD (inferDatatype v)⟩]
         else st.ownerAtts kind o ++ [⟨o, k, v, dt.getD (inferDatatype v)⟩])) := rfl

/-- C1: starting from an owner with no attributes, two `set_node_attribute`
calls without overwrite append two records, kept in call order with their
own values; with `overwrite=true`, each call replaces the owner's *entire*
attribute list (whatever state it was in), so two overwrite calls leave
exactly the single record of the last call. -/
theorem set_attribute_append_and_overwrite
    (st st2 : NiceCXNetwork) (o : Nat) (k : String) (v1 v2 : CXValue)
    (h : st.get_node_attributes o = []) :
    (∃ s1 s2,
      st.set_node_attribute (.pid o) (some k) (some v1) none false = .ok s1
      ∧ s1.set_node_attribute (.pid o) (some k) (some v2) none false = .ok s2
      ∧ s2.get_node_attributes o =
          [⟨o, k, v1, inferDatatype v1⟩, ⟨o, k, v2, inferDatatype v2⟩])
    ∧ (∃ s1 s2,
      st2.set_node_attribute (.pid o) (some k) (some v1) none true = .ok s1
      ∧ s1.set_node_attribute (.pid o) (some k) (some v2) none true = .ok s2
      ∧ s2.get_node_attributes o = [⟨o, k, v2, inferDatatype v2⟩]) := by
  constructor
  · refine ⟨_, _, set_attribute_ok st .node o k v1 none false,
      set_attribute_ok _ .node o k v2 none false, ?_⟩
    simp only [NiceCXNetwork.get_node_attributes] at h ⊢
    simp [ownerAtts_setOwnerAtts_self, h]
  · refine ⟨_, _, set_attribute_ok st2 .node o k v1 none true,
      set_attribute_ok _ .node o k v2 none true, ?_⟩
    simp [NiceCXNetwork.get_node_attributes, ownerAtts_setOwnerAtts_self]

/-- Witness for C1 on a fresh network, owner 1, name `attrname`. -/
theorem set_attribute_append_and_overwrite_app :
    (∃ s1 s2,
      NiceCXNetwork.empty.set_node_attribute (.pid 1) (some "attrname")
          (some (.scalar (.sstr "value"))) none false = .ok s1
      ∧ s1.set_node_attribute (.pid 1) (some "attrname")
          (some (.scalar (.sstr "value2"))) none false = .ok s2
      ∧ s2.get_node_attributes 1 =
          [⟨1, "attrname", .scalar (.sstr "value"), inferDatatype (.scalar (.sstr "value"))⟩,
           ⟨1, "attrname", .scalar (.sstr "value2"), inferDatatype (.scalar (.sstr "value2"))⟩])
    ∧ (∃ s1 s2,
      NiceCXNetwork.empty.set_node_attribute (.pid 1) (some "attrname")
          (some (.scalar (.sstr "value"))) none true = .ok s1
      ∧ s1.set_node_attribute (.pid 1) (some "attrname")
          (some (.scalar (.sstr "value2"))) none true = .ok s2
      ∧ s2.get_node_attributes 1 =
          [⟨1, "attrname", .scalar (.sstr "value2"), inferDatatype (.scalar (.sstr "value2"))⟩]) :=
  set_attribute_append_and_overwrite NiceCXNetwork.empty NiceCXNetwork.empty 1 "attrname"
    (.scalar (.sstr "value")) (.scalar (.sstr "value2")) rfl

/-- The scalar kind of a CX scalar value, used to state homogeneity: a
sequence is homogeneous when all its elements share one kind. -/
def CXScalar.kind : CXScalar → Nat
  | .sbool _ => 0
  | .swhole _ => 1
  | .sfrac _ => 2
  | .sstr _ => 3

theorem inferDatatype_vlist (elems : List CXScalar) :
    inferDatatype (.vlist elems) =
      if elems.all isStrScalar then "list_of_string"
      else if elems.all isWholeScalar then "list_of_integer"
      else if elems.all isFracScalar then "list_of_double"
      else if elems.all isBoolScalar then "list_of_boolean"
      else "string" := rfl

/-- C3, counterexample: the claim's catch-all "anything else infers
`string`" is false as stated — a homogeneous sequence of whole numbers is
not a homogeneous sequence of strings, yet it infers `list_of_integer`
(the spec's "generalize analogously for other element types"), not
`string`. -/
theorem infer_datatype_integer_list_not_string :
    inferDatatype (.vlist [.swhole 1, .swhole 2]) = "list_of_integer"
    ∧ inferDatatype (.vlist [.swhole 1, .swhole 2]) ≠ "string" := by
  exact ⟨rfl, by decide⟩

/-- C3, amended: the datatype inferred by `setAttribute` when none is given
follows the value's shape — whole number → `integer`, fractional number →
`double`, boolean → `boolean`, a homogeneous sequence infers the matching
`list_of_` variant (`list_of_string` for strings; analogously
`list_of_integer`, `list_of_double`, `list_of_boolean` on non-empty
sequences), and anything else — a plain string, or a sequence mixing two
scalar kinds — infers `string`; the record actually stored by
`set_node_attribute` without an explicit datatype carries exactly this
inferred datatype. -/
theorem infer_datatype_shapes :
    (∀ i : Int, inferDatatype (.scalar (.swhole i)) = "integer")
    ∧ (∀ q : ℚ, inferDatatype (.scalar (.sfrac q)) = "double")
    ∧ (∀ b : Bool, inferDatatype (.scalar (.sbool b)) = "boolean")
    ∧ (∀ elems : List String,
        inferDatatype (.vlist (elems.map .sstr)) = "list_of_string")
    ∧ (∀ (i : Int) (is' : List Int),
        inferDatatype (.vlist ((i :: is').map .swhole)) = "list_of_integer")
    ∧ (∀ (q : ℚ) (qs : List ℚ),
        inferDatatype (.vlist ((q :: qs).map .sfrac)) = "list_of_double")
    ∧ (∀ (b : Bool) (bs : List Bool),
        inferDatatype (.vlist ((b :: bs).map .sbool)) = "list_of_boolean")
    ∧ (∀ s : String, inferDatatype (.scalar (.sstr s)) = "string")
    ∧ (∀ (elems : List CXScalar) (x y : CXScalar), x ∈ elems → y ∈ elems →
        x.kind ≠ y.kind → inferDatatype (.vlist elems) = "string")
    ∧ (∀ (st : NiceCXNetwork) (o : Nat) (k : String) (v : CXValue),
        ∃ s1, st.set_node_attribute (.pid o) (some k) (some v) none false = .ok s1
          ∧ (s1.get_node_attributes o).getLast? = some ⟨o, k, v, inferDatatype v⟩) := by
  have hmapall : ∀ {β : Type} (f : β → CXScalar) (p : CXScalar → Bool) (l : List β),
      (∀ x, p (f x) = true) → (l.map f).all p = true := by
    intro β f p l hp
    rw [List.all_eq_true]
    intro x hx
    obtain ⟨s, hs, rfl⟩ := List.mem_map.mp hx
    exact hp s
  refine ⟨fun i => rfl, fun q => rfl, fun b => rfl, ?_, ?_, ?_, ?_, fun s => rfl, ?_, ?_⟩
  · intro elems
    have h : (elems.map CXScalar.sstr).all isStrScalar = true :=
      hmapall _ _ _ (fun x => rfl)
    rw [inferDatatype_vlist, h]
    simp
  · intro i is'
    have h1 : ((i :: is').map CXScalar.swhole).all isStrScalar = false := by
      simp [isStrScalar]
    have h2 : ((i :: is').map CXScalar.swhole).all isWholeScalar = true :=
      hmapall _ _ _ (fun x => rfl)
    rw [inferDatatype_vlist, h1, h2]
    simp
  · intro q qs
    have h1 : ((q :: qs).map CXScalar.sfrac).all isStrScalar = false := by
      simp [isStrScalar]
    have h2 : ((q :: qs).map CXScalar.sfrac).all isWholeScalar = false := by
      simp [isWholeScalar]
    have h3 : ((q :: qs).map CXScalar.sfrac).all isFracScalar = true :=
      hmapall _ _ _ (fun x => rfl)
    rw [inferDatatype_vlist, h1, h2, h3]
    simp
  · intro b bs
    have h1 : ((b :: bs).map CXScalar.sbool).all isStrScalar = false := by
      simp [isStrScalar]
    have h2 : ((b :: bs).map CXScalar.sbool).all isWholeScalar = false := by
      simp [isWholeScalar]
    have h3 : ((b :: bs).map CXScalar.sbool).all isFracScalar = false := by
      simp [isFracScalar]
    have h4 : ((b :: bs).map CXScalar.sbool).all isBoolScalar = true :=
      hmapall _ _ _ (fun x => rfl)
    rw [inferDatatype_vlist, h1, h2, h3, h4]
    simp
  · intro elems x y hx hy hk
    have hgen : ∀ (p : CXScalar → Bool) (kp : Nat),
        (∀ e, p e = true → CXScalar.kind e = kp) → elems.all p = false := by
      intro p kp hp
      cases hall : elems.all p with
      | false => rfl
      | true =>
        rw [List.all_eq_true] at hall
        exact absurd ((hp x (hall x hx)).trans (hp y (hall y hy)).symm) hk
    have hs := hgen isStrScalar 3 (fun e he => by
      cases e with
      | sstr s => rfl
      | sbool b => exact Bool.noConfusion he
      | swhole i => exact Bool.noConfusion he
      | sfrac q => exact Bool.noConfusion he)
    have hw := hgen isWholeScalar 1 (fun e he => by
      cases e with
      | swhole i => rfl
      | sbool b => exact Bool.noConfusion he
      | sfrac q => exact Bool.noConfusion he
      | sstr s => exact Bool.noConfusion he)
    have hf := hgen isFracScalar 2 (fun e he => by
      cases e with
      | sfrac q => rfl
      | sbool b => exact Bool.noConfusion he
      | swhole i => exact Bool.noConfusion he
      | sstr s => exact Bool.noConfusion he)
    have hb := hgen isBoolScalar 0 (fun e he => by
      cases e with
      | sbool b => rfl
      | swhole i => exact Bool.noConfusion he
      | sfrac q => exact Bool.noConfusion he
      | sstr s => exact Bool.noConfusion he)
    rw [inferDatatype_vlist, hs, hw, hf, hb]
    simp
  · intro st o k v
    refine ⟨_, set_attribute_ok st .node o k v none false, ?_⟩
    simp [NiceCXNetwork.get_node_attributes, ownerAtts_setOwnerAtts_self]

/-- Witness for the amended C3: the mixed sequence `[5, "hi"]` (two scalar
kinds) infers `string`, and `set_node_attribute` without an explicit
datatype stores a record whose datatype is the inferred one. -/
theorem infer_datatype_shapes_app :
    inferDatatype (.vlist [.swhole 5, .sstr "hi"]) = "string"
    ∧ inferDatatype (.vlist (((3 : Int) :: [4]).map .swhole)) = "list_of_integer"
    ∧ ∃ s1, NiceCXNetwork.empty.set_node_attribute (.pid 1) (some "attrname")
          (some (.vlist [.swhole 5, .sstr "hi"])) none false = .ok s1
        ∧ (s1.get_node_attributes 1).getLast?
            = some ⟨1, "attrname", .vlist [.swhole 5, .sstr "hi"],
                inferDatatype (.vlist [.swhole 5, .sstr "hi"])⟩ :=
  ⟨infer_datatype_shapes.2.2.2.2.2.2.2.2.1 [.swhole 5, .sstr "hi"]
      (.swhole 5) (.sstr "hi") (by simp) (by simp) (by decide),
    infer_datatype_shapes.2.2.2.2.1 3 [4],
    infer_datatype_shapes.2.2.2.2.2.2.2.2.2 NiceCXNetwork.empty 1 "attrname"
      (.vlist [.swhole 5, .sstr "hi"])⟩

/-- C5: `set_attribute` rejects malformed required inputs with
`InvalidArgument` and the fixed messages the tests pin, and never succeeds
on them: a null/missing `propertyOf`; a structured owner reference without
an id field (`No id found in Node`/`No id found in Edge`); a missing name
or a missing value. -/
theorem set_attribute_invalid_argument_errors :
    (∀ (st : NiceCXNetwork) (kind : OwnerKind) (k : String) (v : CXValue)
        (dt : Option String) (ow : Bool),
      st.set_attribute kind .pnull (some k) (some v) dt ow
        = .error (.invalidArgument (kind.label ++ " attribute requires property_of")))
    ∧ (∀ (st : NiceCXNetwork) (kind : OwnerKind) (k : String) (v : CXValue)
        (dt : Option String) (ow : Bool),
      st.set_attribute kind (.pobj none) (some k) (some v) dt ow
        = .error (.invalidArgument ("No id found in " ++ kind.label)))
    ∧ (∀ (st : NiceCXNetwork) (kind : OwnerKind) (i : Nat) (vOpt : Option CXValue)
        (dt : Option String) (ow : Bool),
      st.set_attribute kind (.pid i) none vOpt dt ow
        = .error (.invalidArgument
            (kind.label ++ " attribute requires the name and values property")))
    ∧ (∀ (st : NiceCXNetwork) (kind : OwnerKind) (i : Nat) (k : String)
        (dt : Option String) (ow : Bool),
      st.set_attribute kind (.pid i) (some k) none dt ow
        = .error (.invalidArgument
            (kind.label ++ " attribute requires the name and values property"))) := by
  refine ⟨fun st kind k v dt ow => rfl, fun st kind k v dt ow => rfl,
    fun st kind i vOpt dt ow => ?_, fun st kind i k dt ow => rfl⟩
  cases vOpt <;> rfl

/-! ## Claims about style reconciliation (C2, C6) -/

/-- C2: for any target and any source carrying a visual-styling aspect in
either schema shape, `apply_style_from_network` replaces the target's
styling aspect wholesale with exactly the three normalized category
bundles derived from the source — so it holds exactly 3 records no matter
how many records (including per-element overrides) the source or target
had — and a second application from a different source again yields
exactly 3. -/
theorem apply_style_replaces_with_three_bundles
    (target src1 src2 : NiceCXNetwork) (va1 va2 : VisualAspect)
    (h1 : src1.visualAspect = some va1) (h2 : src2.visualAspect = some va2) :
    ∃ t1 t2,
      target.apply_style_from_network (.anet src1) = .ok t1
      ∧ t1.visualAspect = some (.bundled (normalizeStyle va1))
      ∧ t1.styleRecordCount = some 3
      ∧ t1.apply_style_from_network (.anet src2) = .ok t2
      ∧ t2.visualAspect = some (.bundled (normalizeStyle va2))
      ∧ t2.styleRecordCount = some 3 := by
  refine ⟨{ target with visualAspect := some (.bundled (normalizeStyle va1)) },
    { target with visualAspect := some (.bundled (normalizeStyle va2)) },
    ?_, ?_, ?_, ?_, ?_, ?_⟩ <;>
    simp [NiceCXNetwork.apply_style_from_network, h1, h2,
      NiceCXNetwork.styleRecordCount, normalizeStyle, VisualAspect.records]

/-- A target network staged with a bundled styling aspect of 9 records,
mirroring the dark-theme fixture of
`test_apply_style_from_wnt_network_to_dark_network`. -/
def styleTargetNet : NiceCXNetwork :=
  { NiceCXNetwork.empty with
      visualAspect := some (.bundled
        [ .networkDefault [("NETWORK_BACKGROUND_PAINT", "#000000")],
          .nodeDefault [("NODE_FILL_COLOR", "#111111")],
          .edgeDefault [("EDGE_PAINT", "#222222")],
          .nodeOverride 0 [("NODE_FILL_COLOR", "#AA0000")],
          .nodeOverride 1 [("NODE_FILL_COLOR", "#BB0000")],
          .nodeOverride 2 [("NODE_FILL_COLOR", "#CC0000")],
          .edgeOverride 0 [("EDGE_PAINT", "#DD0000")],
          .edgeOverride 1 [("EDGE_PAINT", "#EE0000")],
          .edgeOverride 2 [("EDGE_PAINT", "#FF0000")] ]) }

/-- A source network with a legacy-shaped styling aspect of 5 records,
including per-element overrides. -/
def styleSourceNetA : NiceCXNetwork :=
  { NiceCXNetwork.empty with
      visualAspect := some (.legacy
        [ .networkDefault [("NETWORK_BACKGROUND_PAINT", "#FFFFFF")],
          .nodeDefault [("NODE_FILL_COLOR", "#89D0F5")],
          .edgeDefault [("EDGE_PAINT", "#333333")],
          .nodeOverride 7 [("NODE_FILL_COLOR", "#00FF00")],
          .edgeOverride 4 [("EDGE_PAINT", "#0000FF")] ]) }

/-- A second, different source network with a bundle-shaped styling aspect
of 4 records. -/
def styleSourceNetB : NiceCXNetwork :=
  { NiceCXNetwork.empty with
      visualAspect := some (.bundled
        [ .networkDefault [("NETWORK_BACKGROUND_PAINT", "#808080")],
          .nodeDefault [("NODE_SIZE", "35.0")],
          .edgeDefault [("EDGE_WIDTH", "2.0")],
          .nodeOverride 11 [("NODE_SIZE", "50.0")] ]) }

/-- Witness for C2: a 9-record target restyled from a 5-record legacy-shape
source and then from a 4-record bundle-shape source ends with exactly 3
records each time. -/
theorem apply_style_replaces_with_three_bundles_app :
    ∃ t1 t2,
      styleTargetNet.apply_style_from_network (.anet styleSourceNetA) = .ok t1
      ∧ t1.visualAspect = some (.bundled (normalizeStyle
          (.legacy
            [ .networkDefault [("NETWORK_BACKGROUND_PAINT", "#FFFFFF")],
              .nodeDefault [("NODE_FILL_COLOR", "#89D0F5")],
              .edgeDefault [("EDGE_PAINT", "#333333")],
              .nodeOverride 7 [("NODE_FILL_COLOR", "#00FF00")],
              .edgeOverride 4 [("EDGE_PAINT", "#0000FF")] ])))
      ∧ t1.styleRecordCount = some 3
      ∧ t1.apply_style_from_network (.anet styleSourceNetB) = .ok t2
      ∧ t2.visualAspect = some (.bundled (normalizeStyle
          (.bundled
            [ .networkDefault [("NETWORK_BACKGROUND_PAINT", "#808080")],
              .nodeDefault [("NODE_SIZE", "35.0")],
              .edgeDefault [("EDGE_WIDTH", "2.0")],
              .nodeOverride 11 [("NODE_SIZE", "50.0")] ])))
      ∧ t2.styleRecordCount = some 3 :=
  apply_style_replaces_with_three_bundles styleTargetNet styleSourceNetA styleSourceNetB
    _ _ rfl rfl

/-- C6: `apply_style_from_network` fails with `InvalidArgument`
"Object passed in is None" on an absent source, with `InvalidArgument`
"Object passed in is not NiceCXNetwork" on a non-network source, and with
`NoStyleFound` "No visual style found in network" on a source without a
visual-styling aspect; the equalities pin down that no other error kind or
message is produced in each case. -/
theorem apply_style_error_cases :
    (∀ st : NiceCXNetwork, st.apply_style_from_network .anone
      = .error (.invalidArgument "Object passed in is None"))
    ∧ (∀ st : NiceCXNetwork, st.apply_style_from_network .notNetwork
      = .error (.invalidArgument "Object passed in is not NiceCXNetwork"))
    ∧ (∀ st src : NiceCXNetwork, src.visualAspect = none →
      st.apply_style_from_network (.anet src)
        = .error (.noStyleFound "No visual style found in network")) := by
  refine ⟨fun st => rfl, fun st => rfl, fun st src h => ?_⟩
  simp [NiceCXNetwork.apply_style_from_network, h]

/-- Witness for C6 at concrete networks (the empty model has no styling
aspect). -/
theorem apply_style_error_cases_app :
    NiceCXNetwork.empty.apply_style_from_network .anone
      = .error (.invalidArgument "Object passed in is None")
    ∧ NiceCXNetwork.empty.apply_style_from_network .notNetwork
      = .error (.invalidArgument "Object passed in is not NiceCXNetwork")
    ∧ styleTargetNet.apply_style_from_network (.anet NiceCXNetwork.empty)
      = .error (.noStyleFound "No visual style found in network") :=
  ⟨apply_style_error_cases.1 NiceCXNetwork.empty,
    apply_style_error_cases.2.1 NiceCXNetwork.empty,
    apply_style_error_cases.2.2 styleTargetNet NiceCXNetwork.empty rfl⟩

/-! ## Claims about the CX codec (C4, C9) -/

/-- C4: on a non-empty CX fragment list, `save_new_network` appends the
record `{"status": [{"error": "", "success": true}]}` when the last
fragment has no `status` key, augments an existing-but-empty status record
in place, and in every case leaves the list ending in exactly one
non-empty status fragment; preparing an already-prepared list changes
nothing, so the trailing record is never duplicated. -/
theorem save_new_network_status_trailing (cx : List CXFragment) (last : CXFragment)
    (h : cx.getLast? = some last) :
    (last.getStatus = none →
      save_new_network_prepare cx = cx ++ [.statusFrag [⟨"", true⟩]])
    ∧ (last.getStatus = some [] →
      save_new_network_prepare cx = cx.dropLast ++ [.statusFrag [⟨"", true⟩]])
    ∧ (∃ records, (save_new_network_prepare cx).getLast? = some (.statusFrag records)
        ∧ records ≠ [])
    ∧ save_new_network_prepare (save_new_network_prepare cx)
        = save_new_network_prepare cx := by
  cases last with
  | aspect nm cnt =>
    have h1 : save_new_network_prepare cx = cx ++ [.statusFrag [⟨"", true⟩]] := by
      simp [save_new_network_prepare, h, CXFragment.getStatus]
    refine ⟨fun _ => h1, fun hc => by simp [CXFragment.getStatus] at hc, ?_, ?_⟩
    · exact ⟨[⟨"", true⟩], by
        rw [h1, List.getLast?_concat], by simp⟩
    · rw [h1]
      simp [save_new_network_prepare, List.getLast?_concat, CXFragment.getStatus]
  | statusFrag records =>
    cases records with
    | nil =>
      have h1 : save_new_network_prepare cx
          = cx.dropLast ++ [.statusFrag [⟨"", true⟩]] := by
        simp [save_new_network_prepare, h, CXFragment.getStatus]
      refine ⟨fun hc => by simp [CXFragment.getStatus] at hc, fun _ => h1, ?_, ?_⟩
      · exact ⟨[⟨"", true⟩], by rw [h1, List.getLast?_concat], by simp⟩
      · rw [h1]
        simp [save_new_network_prepare, List.getLast?_concat, CXFragment.getStatus]
    | cons r rs =>
      have h1 : save_new_network_prepare cx = cx := by
        simp [save_new_network_prepare, h, CXFragment.getStatus]
      refine ⟨fun hc => by simp [CXFragment.getStatus] at hc,
        fun hc => by simp [CXFragment.getStatus] at hc, ?_, ?_⟩
      · exact ⟨r :: rs, by rw [h1]; exact h, by simp⟩
      · rw [h1, h1]

/-- Witness for C4: a one-fragment list without status gets exactly the
trailing status record appended, and the preparation is idempotent
there. -/
theorem save_new_network_status_trailing_app :
    ((CXFragment.aspect "nodes" 2).getStatus = none →
      save_new_network_prepare [.aspect "nodes" 2]
        = [.aspect "nodes" 2] ++ [.statusFrag [⟨"", true⟩]])
    ∧ ((CXFragment.aspect "nodes" 2).getStatus = some [] →
      save_new_network_prepare [.aspect "nodes" 2]
        = [CXFragment.aspect "nodes" 2].dropLast ++ [.statusFrag [⟨"", true⟩]])
    ∧ (∃ records,
        (save_new_network_prepare [.aspect "nodes" 2]).getLast?
          = some (.statusFrag records) ∧ records ≠ [])
    ∧ save_new_network_prepare (save_new_network_prepare [.aspect "nodes" 2])
        = save_new_network_prepare [.aspect "nodes" 2] :=
  save_new_network_status_trailing [.aspect "nodes" 2] (.aspect "nodes" 2) rfl

/-- C9: `DecimalEncoder.default` maps an arbitrary-precision decimal to a
float-kinded number, a numpy integer to a plain integer, and a byte
sequence to its ASCII decoding — succeeding exactly when every byte is
below 128 and failing with an encoding error otherwise. -/
theorem decimal_encoder_mappings :
    (∀ q : ℚ, DecimalEncoder.default (.pdecimal q) = .ok (.jfloat q))
    ∧ (∀ i : Int, DecimalEncoder.default (.pnpint i) = .ok (.jint i))
    ∧ (∀ bs : List Nat, (∀ b ∈ bs, b < 128) →
        DecimalEncoder.default (.pbytes bs)
          = .ok (.jstr (String.mk (bs.map Char.ofNat))))
    ∧ (∀ bs : List Nat, (∃ b ∈ bs, 128 ≤ b) →
        ∃ e, DecimalEncoder.default (.pbytes bs) = .error e) := by
  refine ⟨fun q => rfl, fun i => rfl, ?_, ?_⟩
  · intro bs h
    have hfind : bs.find? (fun b => 128 ≤ b) = none := by
      rw [List.find?_eq_none]
      intro x hx
      simpa using Nat.not_le.mpr (h x hx)
    simp [DecimalEncoder.default, asciiDecode, hfind]
  · intro bs h
    have hfind : (bs.find? (fun b => 128 ≤ b)).isSome := by
      rw [List.find?_isSome]
      obtain ⟨b, hb, hle⟩ := h
      exact ⟨b, hb, by simpa using hle⟩
    obtain ⟨b, hb⟩ := Option.isSome_iff_exists.mp hfind
    exact ⟨.nonAsciiByte b, by simp [DecimalEncoder.default, asciiDecode, hb]⟩

/-- Witness for C9: the decimal 5/2, the numpy integer 42, the ASCII bytes
of `hi` (104, 105), and a byte sequence containing 200. -/
theorem decimal_encoder_mappings_app :
    DecimalEncoder.default (.pdecimal (5 / 2)) = .ok (.jfloat (5 / 2))
    ∧ DecimalEncoder.default (.pnpint 42) = .ok (.jint 42)
    ∧ DecimalEncoder.default (.pbytes [104, 105])
        = .ok (.jstr (String.mk ([104, 105].map Char.ofNat)))
    ∧ ∃ e, DecimalEncoder.default (.pbytes [104, 200]) = .error e :=
  ⟨decimal_encoder_mappings.1 (5 / 2),
    decimal_encoder_mappings.2.1 42,
    decimal_encoder_mappings.2.2.1 [104, 105] (by decide),
    decimal_encoder_mappings.2.2.2 [104, 200] ⟨200, by simp, by omega⟩⟩
